import Mathlib

/-!
# Sidero metal management API client (`internal/pkg/api/api.go`)

A shallow embedding of the `api.Client` of `internal/pkg/api/api.go` and the
properties of its five operations.

The client talks to the outside world through three Go standard library
entry points, which are modelled here as follows.

* `http.NewRequestWithContext(ctx, method, url, nil)`: the method is one of the
  constants `POST`/`GET` and the context is non-nil, so the only way to fail is
  `url.Parse` rejecting the URL string.  The parser is a parameter of the
  environment (`Env.parseURL`).
* `http.DefaultClient.Do(req)`: a parameter of the environment
  (`Env.roundTrip`).  It may depend on the requests that were sent before; the
  10 second deadline of the context shows up as one of its error answers.  On a
  nil error `Response.Body` is never nil (documented by `net/http`), and the
  body is taken to be a text that can be read to its end.
* `json.NewDecoder(resp.Body).Decode(&status)`: modelled in the namespace
  `json` after `encoding/json` (`scanner.go`, `stream.go`, `decode.go`),
  with the scanner's bound `maxNestingDepth` on the nesting of arrays and
  objects.

Draining and closing the body (the deferred function) has no effect on the
values returned and is not part of the model.
-/

namespace api

/-! ## Data model -/

/-- The arguments an `http.Request` is built from: method, URL and body
(`none` is the Go `nil` body). -/
structure Request where
  method : String
  url : String
  body : Option String
  deriving DecidableEq, Repr

/-- The fields of `http.Response` the client looks at: `Status`
(for instance `"200 OK"`), `StatusCode` and the text of `Body`. -/
structure Response where
  status : String
  statusCode : Int
  body : String
  deriving DecidableEq, Repr

/-- Go `error` values the client can return, by origin.
`request`: the error of `http.NewRequestWithContext`;
`transport`: the error of `http.DefaultClient.Do`;
`errorString`: a value built by `fmt.Errorf`;
`EOF`, `ErrUnexpectedEOF`: `io.EOF` and `io.ErrUnexpectedEOF`;
`syntaxError`: `*json.SyntaxError` (offending character and context);
`unmarshalTypeError`: `*json.UnmarshalTypeError` (JSON value kind and Go type). -/
inductive Error where
  | request (msg : String)
  | transport (msg : String)
  | errorString (s : String)
  | EOF
  | ErrUnexpectedEOF
  | syntaxError (c : Char) (context : String)
  | unmarshalTypeError (value : String) (type : String)
  deriving DecidableEq, Repr

/-- The outside world. `parseURL u` is the failure of `url.Parse` on `u`
(`none` when `u` parses); `roundTrip sent req` is the answer of the default HTTP
client to `req` when `sent` are the requests issued before it. -/
structure Env where
  parseURL : String → Option String
  roundTrip : List Request → Request → Except String Response

/-- The Go `metalv1alpha1.ManagementAPI` value (only `Endpoint` is read). -/
structure ManagementAPI where
  Endpoint : String
  deriving DecidableEq, Repr

/-- Client provides management over simple API. -/
structure Client where
  endpoint : String
  deriving DecidableEq, Repr

/-- The local `status` of `IsPoweredOn`: `struct { PoweredOn bool }`. -/
structure Status where
  PoweredOn : Bool
  deriving DecidableEq, Repr

/-- The constant `http.StatusOK`. -/
def StatusOK : Int := 200

/-- The constant `http.MethodPost`. -/
def MethodPost : String := "POST"

/-- The constant `http.MethodGet`. -/
def MethodGet : String := "GET"

/-- Model of `http.NewRequestWithContext`: fails with the URL parser's error,
otherwise yields the request made of its arguments. -/
def NewRequestWithContext (env : Env) (method url : String) (body : Option String) :
    Except Error Request :=
  match env.parseURL url with
  | some msg => .error (.request msg)
  | none => .ok ⟨method, url, body⟩

/-- Model of `http.DefaultClient.Do` after the requests `sent`. -/
def Do (env : Env) (sent : List Request) (req : Request) : Except Error Response :=
  match env.roundTrip sent req with
  | .error msg => .error (.transport msg)
  | .ok resp => .ok resp

/-! ## Model of `encoding/json` for the destination `struct { PoweredOn bool }` -/

namespace json

/-- A JSON value as the decoder sees it; numbers keep their literal text. -/
inductive Value where
  | null
  | bool (b : Bool)
  | number (lit : String)
  | string (s : String)
  | array (elems : List Value)
  | object (members : List (String × Value))

/-- The entries of the scanner's `parseState` stack, each with the part of the
enclosing value read so far. -/
inductive Frame where
  | objectKey (members : List (String × Value))
  | objectValue (members : List (String × Value)) (key : String)
  | arrayValue (elems : List Value)

/-- Positions inside a numeric literal (`stateNeg`, `state1`, `state0`,
`stateDot`, `stateDot0`, `stateE`, `stateESign`, `stateE0`). -/
inductive NumState where
  | neg | one | zero | dot | dot0 | e | eSign | e0

/-- The scanner's step functions. `inString` and the escape states carry the
raw text of the string read so far (reversed), `inNumber` the literal read so
far (reversed), `inLiteral` the characters of `true`/`false`/`null` still
expected, and `endValue` the value just completed. -/
inductive State where
  | beginValueOrEmpty
  | beginValue
  | beginStringOrEmpty
  | beginString
  | endValue (v : Value)
  | inString (raw : List Char)
  | inStringEsc (raw : List Char)
  | inStringEscU (raw : List Char) (seen : Nat)
  | inNumber (st : NumState) (lit : List Char)
  | inLiteral (name : String) (v : Value) (expect : List Char)

/-- Outcome of feeding one character to the scanner: go on, the top-level value
is complete (`scanEnd`), or a syntax error (`scanError`). -/
inductive Step where
  | next (s : State) (stack : List Frame)
  | done (v : Value)
  | fail (e : Error)

/-- The scanner reads bytes: a character outside ASCII reaches it as the bytes
of its UTF-8 encoding, and a syntax error at such a character names the first
of these bytes (printed as the rune of that value). `leadByte c` is that byte;
for an ASCII character it is the character itself. -/
def leadByte (c : Char) : Char :=
  if c.toNat < 0x80 then c
  else if c.toNat < 0x800 then Char.ofNat (0xc0 + c.toNat / 64)
  else if c.toNat < 0x10000 then Char.ofNat (0xe0 + c.toNat / 4096)
  else Char.ofNat (0xf0 + c.toNat / 262144)

/-- Go `isSpace`. -/
def isSpace (c : Char) : Bool :=
  c == ' ' || c == '\t' || c == '\r' || c == '\n'

/-- A decimal digit. -/
def isDigit (c : Char) : Bool := '0' ≤ c && c ≤ '9'

/-- A hexadecimal digit. -/
def isHex (c : Char) : Bool :=
  ('0' ≤ c && c ≤ '9') || ('a' ≤ c && c ≤ 'f') || ('A' ≤ c && c ≤ 'F')

/-- Value of a hexadecimal digit (as in `getu4`). -/
def hexVal (c : Char) : Nat :=
  if '0' ≤ c && c ≤ '9' then c.toNat - 48
  else if 'a' ≤ c && c ≤ 'f' then c.toNat - 87
  else if 'A' ≤ c && c ≤ 'F' then c.toNat - 55
  else 0

/-- Go `getu4` on the four digits after `\u`. -/
def getu4 (a b c d : Char) : Nat :=
  ((hexVal a * 16 + hexVal b) * 16 + hexVal c) * 16 + hexVal d

/-- Go `utf16.IsSurrogate`. -/
def isSurrogate (r : Nat) : Bool := 0xd800 ≤ r && r < 0xe000

/-- Go `utf16.DecodeRune`: the code point of a surrogate pair, or U+FFFD. -/
def decodeRune (r1 r2 : Nat) : Nat :=
  if 0xd800 ≤ r1 && r1 < 0xdc00 && 0xdc00 ≤ r2 && r2 < 0xe000 then
    ((r1 - 0xd800) * 1024 + (r2 - 0xdc00)) + 0x10000
  else 0xfffd

/-- The character a one-letter escape stands for. -/
def unescape (c : Char) : Char :=
  if c == 'b' then Char.ofNat 8
  else if c == 'f' then Char.ofNat 12
  else if c == 'n' then '\n'
  else if c == 'r' then '\r'
  else if c == 't' then '\t'
  else c

/-- What is written for a `\u` escape of a surrogate that found no partner:
U+FFFD. `high` is such a surrogate still waiting for its partner. -/
def flush (high : Option Nat) : List Char :=
  match high with
  | some _ => [Char.ofNat 0xfffd]
  | none => []

/-- Go `unquoteBytes` on the text between the quotes of a string that the
scanner has accepted. A `\u` escape of a surrogate is joined with a directly
following `\u` escape when the two form a valid pair, and is replaced by U+FFFD
otherwise; `high` is the surrogate read last, if it still waits for a partner. -/
def unquoteFrom (high : Option Nat) : List Char → List Char
  | [] => flush high
  | '\\' :: 'u' :: a :: b :: c :: d :: rest =>
    if high.isSome && decodeRune (high.getD 0) (getu4 a b c d) ≠ 0xfffd then
      Char.ofNat (decodeRune (high.getD 0) (getu4 a b c d)) :: unquoteFrom none rest
    else if isSurrogate (getu4 a b c d) then
      flush high ++ unquoteFrom (some (getu4 a b c d)) rest
    else flush high ++ Char.ofNat (getu4 a b c d) :: unquoteFrom none rest
  | '\\' :: e :: rest => flush high ++ unescape e :: unquoteFrom none rest
  | c :: rest => flush high ++ c :: unquoteFrom none rest

/-- Go `unquoteBytes`. -/
def unquote (raw : List Char) : List Char := unquoteFrom none raw

/-- The constant `maxNestingDepth` of `scanner.go`. -/
def maxNestingDepth : Nat := 10000

/-- Go `pushParseState`: the new entry is pushed, and the scanner goes on in
state `s` unless the stack has become deeper than `maxNestingDepth`, which is
the syntax error "exceeded max depth" at the opening bracket `c`. -/
def pushParseState (c : Char) (f : Frame) (stack : List Frame) (s : State) : Step :=
  if (f :: stack).length ≤ maxNestingDepth then .next s (f :: stack)
  else .fail (.syntaxError (leadByte c) "exceeded max depth")

/-- Go `popParseState` after a closing bracket: when the stack becomes empty the
top-level value is complete (`readValue` does not wait for another byte). -/
def popParseState (v : Value) (stack : List Frame) : Step :=
  match stack with
  | [] => .done v
  | _ :: _ => .next (.endValue v) stack

/-- Go `stateEndValue` (with `stateEndTop` when the stack is empty: a
complaint about a following non-space byte is left to the next call of
`Decode`). In an `objectKey` frame the value just read is always a string,
since a key starts in `stateBeginString`; the branch for other values is
never taken. -/
def stateEndValue (v : Value) (stack : List Frame) (c : Char) : Step :=
  match stack with
  | [] => .done v
  | f :: fs =>
    if isSpace c then .next (.endValue v) stack
    else
      match f with
      | .objectKey members =>
        if c == ':' then
          match v with
          | .string k => .next .beginValue (.objectValue members k :: fs)
          | _ => .fail (.syntaxError (leadByte c) "after object key")
        else .fail (.syntaxError (leadByte c) "after object key")
      | .objectValue members k =>
        if c == ',' then .next .beginString (.objectKey (members ++ [(k, v)]) :: fs)
        else if c == '}' then popParseState (.object (members ++ [(k, v)])) fs
        else .fail (.syntaxError (leadByte c) "after object key:value pair")
      | .arrayValue elems =>
        if c == ',' then .next .beginValue (.arrayValue (elems ++ [v]) :: fs)
        else if c == ']' then popParseState (.array (elems ++ [v])) fs
        else .fail (.syntaxError (leadByte c) "after array element")

/-- Go `stateBeginValue`. -/
def stateBeginValue (stack : List Frame) (c : Char) : Step :=
  if isSpace c then .next .beginValue stack
  else if c == '{' then pushParseState c (.objectKey []) stack .beginStringOrEmpty
  else if c == '[' then pushParseState c (.arrayValue []) stack .beginValueOrEmpty
  else if c == '"' then .next (.inString []) stack
  else if c == '-' then .next (.inNumber .neg [c]) stack
  else if c == '0' then .next (.inNumber .zero [c]) stack
  else if c == 't' then .next (.inLiteral "true" (.bool true) ['r', 'u', 'e']) stack
  else if c == 'f' then .next (.inLiteral "false" (.bool false) ['a', 'l', 's', 'e']) stack
  else if c == 'n' then .next (.inLiteral "null" .null ['u', 'l', 'l']) stack
  else if '1' ≤ c && c ≤ '9' then .next (.inNumber .one [c]) stack
  else .fail (.syntaxError (leadByte c) "looking for beginning of value")

/-- Go `stateBeginString`. -/
def stateBeginString (stack : List Frame) (c : Char) : Step :=
  if isSpace c then .next .beginString stack
  else if c == '"' then .next (.inString []) stack
  else .fail (.syntaxError (leadByte c) "looking for beginning of object key string")

/-- The number read so far as a value. -/
def numberValue (lit : List Char) : Value := .number (String.mk lit.reverse)

/-- Go `state0`, `stateDot0` and `stateE0` once no further digit follows. -/
def stateNumberEnd (st : NumState) (lit : List Char) (stack : List Frame) (c : Char) : Step :=
  match st with
  | .zero =>
    if c == '.' then .next (.inNumber .dot (c :: lit)) stack
    else if c == 'e' || c == 'E' then .next (.inNumber .e (c :: lit)) stack
    else stateEndValue (numberValue lit) stack c
  | .dot0 =>
    if c == 'e' || c == 'E' then .next (.inNumber .e (c :: lit)) stack
    else stateEndValue (numberValue lit) stack c
  | _ => stateEndValue (numberValue lit) stack c

/-- Go `stateESign`. -/
def stateESign (lit : List Char) (stack : List Frame) (c : Char) : Step :=
  if isDigit c then .next (.inNumber .e0 (c :: lit)) stack
  else .fail (.syntaxError (leadByte c) "in exponent of numeric literal")

/-- The step functions of a numeric literal. -/
def stateNumber (st : NumState) (lit : List Char) (stack : List Frame) (c : Char) : Step :=
  match st with
  | .neg =>
    if c == '0' then .next (.inNumber .zero (c :: lit)) stack
    else if '1' ≤ c && c ≤ '9' then .next (.inNumber .one (c :: lit)) stack
    else .fail (.syntaxError (leadByte c) "in numeric literal")
  | .one =>
    if isDigit c then .next (.inNumber .one (c :: lit)) stack
    else stateNumberEnd .zero lit stack c
  | .zero => stateNumberEnd .zero lit stack c
  | .dot =>
    if isDigit c then .next (.inNumber .dot0 (c :: lit)) stack
    else .fail (.syntaxError (leadByte c) "after decimal point in numeric literal")
  | .dot0 =>
    if isDigit c then .next (.inNumber .dot0 (c :: lit)) stack
    else stateNumberEnd .dot0 lit stack c
  | .e =>
    if c == '+' || c == '-' then .next (.inNumber .eSign (c :: lit)) stack
    else stateESign lit stack c
  | .eSign => stateESign lit stack c
  | .e0 =>
    if isDigit c then .next (.inNumber .e0 (c :: lit)) stack
    else stateNumberEnd .e0 lit stack c

/-- One step of the scanner (`s.step(s, c)`). The scanner is in
`beginValueOrEmpty` only right after `[` and in `beginStringOrEmpty` only right
after `\x7b`, so the frame on top of the stack is the one matched there and the
other branch of these two matches is never taken. -/
def step (s : State) (stack : List Frame) (c : Char) : Step :=
  match s with
  | .beginValueOrEmpty =>
    if isSpace c then .next .beginValueOrEmpty stack
    else if c == ']' then
      match stack with
      | .arrayValue elems :: fs => popParseState (.array elems) fs
      | _ => .fail (.syntaxError (leadByte c) "looking for beginning of value")
    else stateBeginValue stack c
  | .beginValue => stateBeginValue stack c
  | .beginStringOrEmpty =>
    if isSpace c then .next .beginStringOrEmpty stack
    else if c == '}' then
      match stack with
      | .objectKey members :: fs => popParseState (.object members) fs
      | _ => .fail (.syntaxError (leadByte c) "looking for beginning of object key string")
    else stateBeginString stack c
  | .beginString => stateBeginString stack c
  | .endValue v => stateEndValue v stack c
  | .inString raw =>
    if c == '"' then .next (.endValue (.string (String.mk (unquote raw.reverse)))) stack
    else if c == '\\' then .next (.inStringEsc (c :: raw)) stack
    else if c.toNat < 0x20 then .fail (.syntaxError (leadByte c) "in string literal")
    else .next (.inString (c :: raw)) stack
  | .inStringEsc raw =>
    if c == 'b' || c == 'f' || c == 'n' || c == 'r' || c == 't' || c == '\\' || c == '/'
        || c == '"' then
      .next (.inString (c :: raw)) stack
    else if c == 'u' then .next (.inStringEscU (c :: raw) 0) stack
    else .fail (.syntaxError (leadByte c) "in string escape code")
  | .inStringEscU raw seen =>
    if isHex c then
      if seen < 3 then .next (.inStringEscU (c :: raw) (seen + 1)) stack
      else .next (.inString (c :: raw)) stack
    else .fail (.syntaxError (leadByte c) "in \\u hexadecimal character escape")
  | .inNumber st lit => stateNumber st lit stack c
  | .inLiteral name v expect =>
    match expect with
    | [] => stateEndValue v stack c
    | e :: rest =>
      if c == e then .next (.inLiteral name v rest) stack
      else
        .fail (.syntaxError (leadByte c)
          ("in literal " ++ name ++ " (expecting " ++ String.mk ['\'', e, '\''] ++ ")"))

/-- The loop of `Decoder.readValue`: feed the characters to the scanner until
the value is complete. At the end of the input a space is fed; when that does
not complete the value the error is `atEOF`. -/
def scan (atEOF : Error) : State → List Frame → List Char → Except Error Value
  | s, stack, [] =>
    match step s stack ' ' with
    | .done v => .ok v
    | _ => .error atEOF
  | s, stack, c :: cs =>
    match step s stack c with
    | .done v => .ok v
    | .fail e => .error e
    | .next s1 stack1 => scan atEOF s1 stack1 cs

/-- Go `Decoder.readValue` on a stream holding `buf`: `io.ErrUnexpectedEOF` when
the input ends inside a value, `io.EOF` when it holds nothing but white space. -/
def readValue (buf : List Char) : Except Error Value :=
  scan (if buf.any (fun c => !isSpace c) then .ErrUnexpectedEOF else .EOF) .beginValue [] buf

/-- The JSON kind named in the `Value` field of an `UnmarshalTypeError`. -/
def kindName : Value → String
  | .null => "null"
  | .bool _ => "bool"
  | .number _ => "number"
  | .string _ => "string"
  | .array _ => "array"
  | .object _ => "object"

/-- ASCII upper case of a character. -/
def foldChar (c : Char) : Char :=
  if 'a' ≤ c && c ≤ 'z' then Char.ofNat (c.toNat - 32) else c

/-- The `equalFold` of a field whose name is made of letters other than `k` and
`s`: comparison of the names without regard to ASCII case. -/
def equalFold (name key : String) : Bool :=
  key.toList.map foldChar == name.toList.map foldChar

/-- The field selected for an object key in `d.object`: `PoweredOn` is the only
field of the destination; an exact match is preferred to a match by
`equalFold`, which selects the same field. -/
def fieldMatches (key : String) : Bool :=
  key == "PoweredOn" || equalFold "PoweredOn" key

/-- Go `d.saveError`: only the first error is kept. -/
def saveError (saved : Option Error) (e : Error) : Option Error :=
  match saved with
  | none => some e
  | some s => some s

/-- Go `d.value` with the `bool` field as destination: `true`/`false` are
stored, `null` leaves the field as it is, any other value is skipped and
recorded as an `UnmarshalTypeError`. -/
def storeBool (v : Value) (st : Status) (saved : Option Error) : Status × Option Error :=
  match v with
  | .bool b => (Status.mk b, saved)
  | .null => (st, saved)
  | .number _ => (st, saveError saved (.unmarshalTypeError "number" "bool"))
  | .string _ => (st, saveError saved (.unmarshalTypeError "string" "bool"))
  | .array _ => (st, saveError saved (.unmarshalTypeError "array" "bool"))
  | .object _ => (st, saveError saved (.unmarshalTypeError "object" "bool"))

/-- Go `d.object` with the struct as destination: the members are handled in
order, values of keys that select no field are skipped. -/
def object : List (String × Value) → Status → Option Error → Status × Option Error
  | [], st, saved => (st, saved)
  | (key, v) :: rest, st, saved =>
    if fieldMatches key then
      object rest (storeBool v st saved).1 (storeBool v st saved).2
    else object rest st saved

/-- Go `d.unmarshal` into `*struct { PoweredOn bool }`: an object is decoded
member by member, `null` changes nothing, any other value is an
`UnmarshalTypeError`. -/
def unmarshal (v : Value) (st : Status) : Status × Option Error :=
  match v with
  | .object members => object members st none
  | .null => (st, none)
  | .bool _ => (st, some (.unmarshalTypeError "bool" "struct \x7b PoweredOn bool \x7d"))
  | .number _ => (st, some (.unmarshalTypeError "number" "struct \x7b PoweredOn bool \x7d"))
  | .string _ => (st, some (.unmarshalTypeError "string" "struct \x7b PoweredOn bool \x7d"))
  | .array _ => (st, some (.unmarshalTypeError "array" "struct \x7b PoweredOn bool \x7d"))

/-- Model of `json.NewDecoder(body).Decode(&status)`: the first JSON value of
the body is read and then stored into `status`; what follows it is not looked
at. -/
def Decode (body : String) (st : Status) : Status × Option Error :=
  match readValue body.toList with
  | .error e => (st, some e)
  | .ok v => unmarshal v st

end json

/-! ## The client -/

/-- NewClient returns new API client to manage metal machine. -/
def NewClient (spec : ManagementAPI) : Client × Option Error :=
  (Client.mk spec.Endpoint, none)

/-- Go `Client.postRequest`, started after the requests `sent`. The result is the
error returned (`none` is `nil`) and the requests issued by the call. -/
def Client.postRequest (env : Env) (c : Client) (path : String) (sent : List Request) :
    Option Error × List Request :=
  match NewRequestWithContext env MethodPost ("http://" ++ c.endpoint ++ path) none with
  | .error err => (some err, [])
  | .ok req =>
    match Do env sent req with
    | .error err => (some err, [req])
    | .ok resp =>
      if resp.statusCode ≠ StatusOK then
        (some (.errorString ("API error: " ++ resp.status)), [req])
      else (none, [req])

/-- PowerOn will power on a given machine. -/
def Client.PowerOn (env : Env) (c : Client) (sent : List Request) :
    Option Error × List Request :=
  c.postRequest env "/poweron" sent

/-- PowerOff will power off a given machine. -/
def Client.PowerOff (env : Env) (c : Client) (sent : List Request) :
    Option Error × List Request :=
  c.postRequest env "/poweroff" sent

/-- PowerCycle will power cycle a given machine. -/
def Client.PowerCycle (env : Env) (c : Client) (sent : List Request) :
    Option Error × List Request :=
  match c.postRequest env "/poweroff" sent with
  | (some err, issued) => (some err, issued)
  | (none, issued) =>
    ((c.postRequest env "/poweron" (sent ++ issued)).1,
      issued ++ (c.postRequest env "/poweron" (sent ++ issued)).2)

/-- SetPXE makes sure the node will pxe boot next time. -/
def Client.SetPXE (env : Env) (c : Client) (sent : List Request) :
    Option Error × List Request :=
  c.postRequest env "/pxeboot" sent

/-- IsPoweredOn checks current power state. The result is the pair returned and
the requests issued by the call. -/
def Client.IsPoweredOn (env : Env) (c : Client) (sent : List Request) :
    (Bool × Option Error) × List Request :=
  match NewRequestWithContext env MethodGet ("http://" ++ c.endpoint ++ "/status") none with
  | .error err => ((false, some err), [])
  | .ok req =>
    match Do env sent req with
    | .error err => ((false, some err), [req])
    | .ok resp =>
      match json.Decode resp.body (Status.mk false) with
      | (_, some err) => ((false, some err), [req])
      | (status, none) => ((status.PoweredOn, none), [req])

/-! ## Classification of errors -/

/-- The errors that come from the decoder: `io.EOF`, `io.ErrUnexpectedEOF`,
`*json.SyntaxError` and `*json.UnmarshalTypeError`. -/
def Error.isDecodeError : Error → Bool
  | .EOF => true
  | .ErrUnexpectedEOF => true
  | .syntaxError _ _ => true
  | .unmarshalTypeError _ _ => true
  | .request _ => false
  | .transport _ => false
  | .errorString _ => false

/-- JSON values that are neither a boolean nor `null`: numbers, strings,
arrays and objects. Stored into a `bool` they are a type mismatch. -/
def json.Value.isOtherType : json.Value → Bool
  | .null => false
  | .bool _ => false
  | .number _ => true
  | .string _ => true
  | .array _ => true
  | .object _ => true

/-- JSON values that are neither an object nor `null`: booleans, numbers,
strings and arrays. Stored into the struct they are a type mismatch. -/
def json.Value.isOtherThanObject : json.Value → Bool
  | .null => false
  | .object _ => false
  | .bool _ => true
  | .number _ => true
  | .string _ => true
  | .array _ => true

/-- A step of the scanner that fails does so with an error of the decoder. -/
def json.Step.decodeErrorOnly : json.Step → Bool
  | .fail e => e.isDecodeError
  | .next _ _ => true
  | .done _ => true

/-! ## Concrete agents, used to run the operations on examples -/

/-- An agent that is reached and answers every request with `resp`. -/
def Env.answering (resp : Response) : Env :=
  ⟨fun _ => none, fun _ _ => .ok resp⟩

/-- An agent that cannot be reached: every request fails in the transport. -/
def Env.unreachable (msg : String) : Env :=
  ⟨fun _ => none, fun _ _ => .error msg⟩

/-- A world in which no URL parses (a malformed endpoint). -/
def Env.malformed (msg : String) : Env :=
  ⟨fun _ => some msg, fun _ _ => .error "no request is sent"⟩

/-- The object with the single key `a` whose value is `n + 1` arrays inside one
another, the innermost one empty: the text `\x7b"a":[[...]]\x7d`, nested `n + 2`
deep. -/
def nestedBody (n : Nat) : String :=
  String.mk ("\x7b\"a\":".toList ++ (List.replicate (n + 1) '[' ++
    (List.replicate (n + 1) ']' ++ ['}'])))

/-- The client used in the examples. -/
def exampleClient : Client := (NewClient ⟨"10.5.0.2:8081"⟩).1

/-! ## Auxiliary facts -/

/-- Appending to a common first part is injective on strings. -/
theorem string_append_cancel (p s t : String) (h : p ++ s = p ++ t) : s = t := by
  have hd := congrArg String.data h
  simp only [String.data_append] at hd
  exact String.ext (List.append_cancel_left hd)

/-- The result of `postRequest` in terms of the two answers of the outside
world. -/
theorem postRequest_eq (env : Env) (c : Client) (path : String) (sent : List Request) :
    c.postRequest env path sent =
      match env.parseURL ("http://" ++ c.endpoint ++ path) with
      | some msg => (some (.request msg), [])
      | none =>
        match env.roundTrip sent ⟨"POST", "http://" ++ c.endpoint ++ path, none⟩ with
        | .error msg =>
          (some (.transport msg), [⟨"POST", "http://" ++ c.endpoint ++ path, none⟩])
        | .ok resp =>
          if resp.statusCode = 200 then
            (none, [⟨"POST", "http://" ++ c.endpoint ++ path, none⟩])
          else
            (some (.errorString ("API error: " ++ resp.status)),
              [⟨"POST", "http://" ++ c.endpoint ++ path, none⟩]) := by
  unfold Client.postRequest NewRequestWithContext Do MethodPost StatusOK
  cases hp : env.parseURL ("http://" ++ c.endpoint ++ path) with
  | some msg => rfl
  | none =>
    simp only []
    cases hr : env.roundTrip sent ⟨"POST", "http://" ++ c.endpoint ++ path, none⟩ with
    | error msg => rfl
    | ok resp =>
      simp only []
      by_cases hs : resp.statusCode = 200 <;> simp [hs]

/-- The request of a POST operation succeeds exactly when the URL parses, the
transport answers and the answer has status code 200. -/
theorem postRequest_ok_iff (env : Env) (c : Client) (path : String) (sent : List Request) :
    (c.postRequest env path sent).1 = none ↔
      env.parseURL ("http://" ++ c.endpoint ++ path) = none ∧
      ∃ resp, env.roundTrip sent ⟨"POST", "http://" ++ c.endpoint ++ path, none⟩ = .ok resp ∧
        resp.statusCode = 200 := by
  rw [postRequest_eq]
  cases hp : env.parseURL ("http://" ++ c.endpoint ++ path) with
  | some msg => simp
  | none =>
    cases hr : env.roundTrip sent ⟨"POST", "http://" ++ c.endpoint ++ path, none⟩ with
    | error msg => simp
    | ok resp =>
      by_cases hs : resp.statusCode = 200 <;> simp [hs]

/-- The URLs of `/poweroff` and `/poweron` differ for every endpoint. -/
theorem poweroff_url_ne_poweron (e : String) :
    "http://" ++ e ++ "/poweroff" ≠ "http://" ++ e ++ "/poweron" := by
  intro h
  have h2 := string_append_cancel ("http://" ++ e) "/poweroff" "/poweron" h
  exact absurd h2 (by decide)

/-- A request that the transport fails is answered with the transport's error,
after exactly one request. -/
theorem postRequest_transport_error (env : Env) (c : Client) (path : String)
    (sent : List Request) (req : Request) (e : Error)
    (hreq : NewRequestWithContext env MethodPost ("http://" ++ c.endpoint ++ path) none = .ok req)
    (hdo : Do env sent req = .error e) :
    c.postRequest env path sent = (some e, [req]) := by
  unfold Client.postRequest
  rw [hreq]
  simp only []
  rw [hdo]

/-- A request that cannot be constructed is answered with the constructor's
error, and nothing is sent. -/
theorem postRequest_request_error (env : Env) (c : Client) (path : String)
    (sent : List Request) (e : Error)
    (hreq : NewRequestWithContext env MethodPost ("http://" ++ c.endpoint ++ path) none
      = .error e) :
    c.postRequest env path sent = (some e, []) := by
  unfold Client.postRequest
  rw [hreq]

/-- A response with a status code other than 200 makes `postRequest` fail with
the error made of the status text. -/
theorem postRequest_status_error (env : Env) (c : Client) (path : String)
    (sent : List Request) (resp : Response)
    (hurl : env.parseURL ("http://" ++ c.endpoint ++ path) = none)
    (hdo : env.roundTrip sent ⟨"POST", "http://" ++ c.endpoint ++ path, none⟩ = .ok resp)
    (hs : resp.statusCode ≠ 200) :
    (c.postRequest env path sent).1 = some (.errorString ("API error: " ++ resp.status)) := by
  rw [postRequest_eq, hurl]
  simp only [hdo, hs, if_false]

/-- The requests issued by `postRequest` when the URL parses. -/
theorem postRequest_issued (env : Env) (c : Client) (path : String) (sent : List Request)
    (hurl : env.parseURL ("http://" ++ c.endpoint ++ path) = none) :
    (c.postRequest env path sent).2 = [⟨"POST", "http://" ++ c.endpoint ++ path, none⟩] := by
  rw [postRequest_eq, hurl]
  cases hr : env.roundTrip sent ⟨"POST", "http://" ++ c.endpoint ++ path, none⟩ with
  | error msg => rfl
  | ok resp =>
    by_cases hs : resp.statusCode = 200 <;> simp [hs]

/-- The result of `IsPoweredOn` in terms of the answers of the outside world
and of the decoder. -/
theorem IsPoweredOn_eq (env : Env) (c : Client) (sent : List Request) :
    c.IsPoweredOn env sent =
      match env.parseURL ("http://" ++ c.endpoint ++ "/status") with
      | some msg => ((false, some (.request msg)), [])
      | none =>
        match env.roundTrip sent ⟨"GET", "http://" ++ c.endpoint ++ "/status", none⟩ with
        | .error msg =>
          ((false, some (.transport msg)), [⟨"GET", "http://" ++ c.endpoint ++ "/status", none⟩])
        | .ok resp =>
          match json.Decode resp.body (Status.mk false) with
          | (_, some err) =>
            ((false, some err), [⟨"GET", "http://" ++ c.endpoint ++ "/status", none⟩])
          | (status, none) =>
            ((status.PoweredOn, none),
              [⟨"GET", "http://" ++ c.endpoint ++ "/status", none⟩]) := by
  unfold Client.IsPoweredOn NewRequestWithContext Do MethodGet
  cases hp : env.parseURL ("http://" ++ c.endpoint ++ "/status") with
  | some msg => rfl
  | none =>
    simp only []
    cases hr : env.roundTrip sent ⟨"GET", "http://" ++ c.endpoint ++ "/status", none⟩ with
    | error msg => rfl
    | ok resp => rfl

/-- `IsPoweredOn` when the transport fails the request. -/
theorem IsPoweredOn_transport_error (env : Env) (c : Client) (sent : List Request)
    (req : Request) (e : Error)
    (hreq : NewRequestWithContext env MethodGet ("http://" ++ c.endpoint ++ "/status") none
      = .ok req)
    (hdo : Do env sent req = .error e) :
    c.IsPoweredOn env sent = ((false, some e), [req]) := by
  unfold Client.IsPoweredOn
  rw [hreq]
  simp only []
  rw [hdo]

/-- `IsPoweredOn` when the request cannot be constructed. -/
theorem IsPoweredOn_request_error (env : Env) (c : Client) (sent : List Request) (e : Error)
    (hreq : NewRequestWithContext env MethodGet ("http://" ++ c.endpoint ++ "/status") none
      = .error e) :
    c.IsPoweredOn env sent = ((false, some e), []) := by
  unfold Client.IsPoweredOn
  rw [hreq]

/-- `IsPoweredOn` on a response, in terms of the decoder alone. -/
theorem IsPoweredOn_of_response (env : Env) (c : Client) (sent : List Request)
    (resp : Response)
    (hurl : env.parseURL ("http://" ++ c.endpoint ++ "/status") = none)
    (hdo : env.roundTrip sent ⟨"GET", "http://" ++ c.endpoint ++ "/status", none⟩ = .ok resp) :
    c.IsPoweredOn env sent =
      match json.Decode resp.body (Status.mk false) with
      | (_, some err) =>
        ((false, some err), [⟨"GET", "http://" ++ c.endpoint ++ "/status", none⟩])
      | (status, none) =>
        ((status.PoweredOn, none), [⟨"GET", "http://" ++ c.endpoint ++ "/status", none⟩]) := by
  rw [IsPoweredOn_eq, hurl]
  simp only [hdo]

/-! ## Facts about the decoder -/

namespace json

theorem popParseState_sound (v : Value) (stack : List Frame) :
    (popParseState v stack).decodeErrorOnly = true := by
  unfold popParseState
  split <;> rfl

theorem stateEndValue_sound (v : Value) (stack : List Frame) (c : Char) :
    (stateEndValue v stack c).decodeErrorOnly = true := by
  unfold stateEndValue
  repeat' split
  all_goals first | rfl | exact popParseState_sound _ _

theorem pushParseState_sound (c : Char) (f : Frame) (stack : List Frame) (s : State) :
    (pushParseState c f stack s).decodeErrorOnly = true := by
  unfold pushParseState
  split <;> rfl

theorem stateBeginValue_sound (stack : List Frame) (c : Char) :
    (stateBeginValue stack c).decodeErrorOnly = true := by
  unfold stateBeginValue
  repeat' split
  all_goals first | rfl | exact pushParseState_sound _ _ _ _

theorem stateBeginString_sound (stack : List Frame) (c : Char) :
    (stateBeginString stack c).decodeErrorOnly = true := by
  unfold stateBeginString
  repeat' split
  all_goals rfl

theorem stateNumberEnd_sound (st : NumState) (lit : List Char) (stack : List Frame)
    (c : Char) : (stateNumberEnd st lit stack c).decodeErrorOnly = true := by
  unfold stateNumberEnd
  repeat' split
  all_goals first | rfl | exact stateEndValue_sound _ _ _

theorem stateESign_sound (lit : List Char) (stack : List Frame) (c : Char) :
    (stateESign lit stack c).decodeErrorOnly = true := by
  unfold stateESign
  repeat' split
  all_goals rfl

theorem stateNumber_sound (st : NumState) (lit : List Char) (stack : List Frame)
    (c : Char) : (stateNumber st lit stack c).decodeErrorOnly = true := by
  unfold stateNumber
  repeat' split
  all_goals first | rfl | exact stateNumberEnd_sound _ _ _ _ | exact stateESign_sound _ _ _

/-- Every failure of a scanner step is a syntax error. -/
theorem step_sound (s : State) (stack : List Frame) (c : Char) :
    (step s stack c).decodeErrorOnly = true := by
  unfold step
  repeat' split
  all_goals first
    | rfl
    | exact popParseState_sound _ _
    | exact stateBeginValue_sound _ _
    | exact stateBeginString_sound _ _
    | exact stateEndValue_sound _ _ _
    | exact stateNumber_sound _ _ _ _

/-- The errors of the scanning loop are errors of the decoder. -/
theorem scan_error (atEOF : Error) (hEOF : atEOF.isDecodeError = true) (cs : List Char) :
    ∀ (s : State) (stack : List Frame) (e : Error),
      scan atEOF s stack cs = .error e → e.isDecodeError = true := by
  induction cs with
  | nil =>
    intro s stack e h
    unfold scan at h
    split at h
    · simp at h
    · simp at h
      rw [← h]
      exact hEOF
  | cons c cs ih =>
    intro s stack e h
    unfold scan at h
    have hs := step_sound s stack c
    split at h
    · simp at h
    · rename_i e1 heq
      rw [heq] at hs
      simp at h
      rw [← h]
      exact hs
    · exact ih _ _ _ h

/-- The errors of `readValue` are errors of the decoder. -/
theorem readValue_error (buf : List Char) (e : Error) (h : readValue buf = .error e) :
    e.isDecodeError = true := by
  unfold readValue at h
  refine scan_error _ ?_ buf _ _ e h
  split <;> rfl

theorem saveError_sound (saved : Option Error) (e0 : Error)
    (hsaved : ∀ x, saved = some x → x.isDecodeError = true)
    (he0 : e0.isDecodeError = true) :
    ∀ x, saveError saved e0 = some x → x.isDecodeError = true := by
  intro x hx
  unfold saveError at hx
  cases saved with
  | none =>
    simp at hx
    rw [← hx]
    exact he0
  | some s0 =>
    simp at hx
    rw [← hx]
    exact hsaved s0 rfl

theorem storeBool_sound (v : Value) (st : Status) (saved : Option Error)
    (hsaved : ∀ x, saved = some x → x.isDecodeError = true) :
    ∀ x, (storeBool v st saved).2 = some x → x.isDecodeError = true := by
  cases v with
  | null => exact hsaved
  | bool b => exact hsaved
  | number lit => exact saveError_sound saved _ hsaved rfl
  | string str => exact saveError_sound saved _ hsaved rfl
  | array elems => exact saveError_sound saved _ hsaved rfl
  | object members => exact saveError_sound saved _ hsaved rfl

/-- The error saved while an object is decoded is an error of the decoder. -/
theorem object_sound (members : List (String × Value)) :
    ∀ (st : Status) (saved : Option Error),
      (∀ x, saved = some x → x.isDecodeError = true) →
      ∀ x, (object members st saved).2 = some x → x.isDecodeError = true := by
  induction members with
  | nil =>
    intro st saved hsaved x hx
    exact hsaved x hx
  | cons kv rest ih =>
    intro st saved hsaved x hx
    obtain ⟨key, v⟩ := kv
    unfold object at hx
    split at hx
    · exact ih _ _ (storeBool_sound v st saved hsaved) x hx
    · exact ih _ _ hsaved x hx

/-- Members whose keys select no field leave the destination and the saved
error as they are. -/
theorem object_no_field (members : List (String × Value)) :
    ∀ (st : Status) (saved : Option Error),
      (∀ kv ∈ members, fieldMatches kv.1 = false) →
      object members st saved = (st, saved) := by
  induction members with
  | nil =>
    intro st saved _
    rfl
  | cons kv rest ih =>
    intro st saved h
    obtain ⟨key, v⟩ := kv
    have hk : fieldMatches key = false := h (key, v) (List.mem_cons_self _ _)
    unfold object
    rw [hk]
    simp only [Bool.false_eq_true, if_false]
    exact ih st saved (fun kv hkv => h kv (List.mem_cons_of_mem _ hkv))

/-- An error that is already saved is the one `object` ends with. -/
theorem object_keeps_error (members : List (String × Value)) :
    ∀ (st : Status) (e0 : Error), (object members st (some e0)).2 = some e0 := by
  induction members with
  | nil =>
    intro st e0
    rfl
  | cons kv rest ih =>
    intro st e0
    obtain ⟨key, v⟩ := kv
    unfold object
    split
    · have hv : (storeBool v st (some e0)).2 = some e0 := by
        cases v <;> rfl
      rw [hv]
      exact ih _ e0
    · exact ih st e0

/-- A member that selects the field and holds a number, a string, an array or
an object makes `object` end with an error. -/
theorem object_type_error (members : List (String × Value)) :
    ∀ (st : Status) (saved : Option Error),
      (∃ kv ∈ members, fieldMatches kv.1 = true ∧ kv.2.isOtherType = true) →
      ∃ e, (object members st saved).2 = some e := by
  induction members with
  | nil =>
    intro st saved h
    obtain ⟨kv, hkv, _⟩ := h
    exact absurd hkv (List.not_mem_nil _)
  | cons hd rest ih =>
    intro st saved h
    obtain ⟨key, v⟩ := hd
    obtain ⟨kv, hkv, hmatch, hother⟩ := h
    rcases List.mem_cons.mp hkv with heq | hrest
    · subst heq
      simp only [] at hmatch hother
      unfold object
      rw [hmatch]
      simp only [if_true]
      have hsome : ∃ e0, (storeBool v st saved).2 = some e0 := by
        cases v with
        | null => simp [Value.isOtherType] at hother
        | bool b => simp [Value.isOtherType] at hother
        | number lit => cases saved <;> simp [storeBool, saveError]
        | string str => cases saved <;> simp [storeBool, saveError]
        | array elems => cases saved <;> simp [storeBool, saveError]
        | object ms => cases saved <;> simp [storeBool, saveError]
      obtain ⟨e0, he0⟩ := hsome
      rw [he0]
      exact ⟨e0, object_keeps_error rest _ e0⟩
    · unfold object
      split
      · exact ih _ _ ⟨kv, hrest, hmatch, hother⟩
      · exact ih _ _ ⟨kv, hrest, hmatch, hother⟩

/-- An error `object` ends with was saved before, or comes from a member that
selects the field and holds a number, a string, an array or an object. -/
theorem object_error_origin (members : List (String × Value)) :
    ∀ (st : Status) (saved : Option Error) (e : Error),
      (object members st saved).2 = some e →
      saved = some e ∨
        ∃ kv ∈ members, fieldMatches kv.1 = true ∧ kv.2.isOtherType = true := by
  induction members with
  | nil =>
    intro st saved e h
    exact Or.inl h
  | cons hd rest ih =>
    intro st saved e h
    obtain ⟨key, v⟩ := hd
    unfold object at h
    by_cases hk : fieldMatches key = true
    · rw [if_pos hk] at h
      rcases ih _ _ e h with hsaved | ⟨kv, hkv, hm, ho⟩
      · cases v with
        | null => exact Or.inl hsaved
        | bool b => exact Or.inl hsaved
        | number lit => exact Or.inr ⟨_, List.mem_cons_self _ _, hk, rfl⟩
        | string str => exact Or.inr ⟨_, List.mem_cons_self _ _, hk, rfl⟩
        | array elems => exact Or.inr ⟨_, List.mem_cons_self _ _, hk, rfl⟩
        | object ms => exact Or.inr ⟨_, List.mem_cons_self _ _, hk, rfl⟩
      · exact Or.inr ⟨kv, List.mem_cons_of_mem _ hkv, hm, ho⟩
    · rw [if_neg hk] at h
      rcases ih _ _ e h with hsaved | ⟨kv, hkv, hm, ho⟩
      · exact Or.inl hsaved
      · exact Or.inr ⟨kv, List.mem_cons_of_mem _ hkv, hm, ho⟩

/-- The bodies for which `Decode` reports an error: no value can be read, the
value read is a boolean, a number, a string or an array, or it is an object
with a member that selects the field and holds a number, a string, an array or
an object. -/
theorem Decode_error_iff (body : String) (st : Status) :
    (∃ e, (Decode body st).2 = some e) ↔
      ((∃ e0, readValue body.toList = .error e0) ∨
        (∃ v, readValue body.toList = .ok v ∧ v.isOtherThanObject = true) ∨
        (∃ members, readValue body.toList = .ok (.object members) ∧
          ∃ kv ∈ members, fieldMatches kv.1 = true ∧ kv.2.isOtherType = true)) := by
  unfold Decode
  cases hr : readValue body.toList with
  | error e1 =>
    simp only []
    exact ⟨fun _ => Or.inl ⟨e1, rfl⟩, fun _ => ⟨e1, rfl⟩⟩
  | ok v =>
    simp only []
    cases v with
    | null =>
      constructor
      · rintro ⟨e, he⟩
        simp [unmarshal] at he
      · rintro (⟨e0, h0⟩ | ⟨v, hv, ho⟩ | ⟨members, hm, _⟩)
        · simp at h0
        · have hv2 : v = Value.null := (Except.ok.inj hv).symm
          rw [hv2] at ho
          simp [Value.isOtherThanObject] at ho
        · have hm2 := Except.ok.inj hm
          simp at hm2
    | bool b =>
      exact ⟨fun _ => Or.inr (Or.inl ⟨_, rfl, rfl⟩), fun _ => ⟨_, rfl⟩⟩
    | number lit =>
      exact ⟨fun _ => Or.inr (Or.inl ⟨_, rfl, rfl⟩), fun _ => ⟨_, rfl⟩⟩
    | string str =>
      exact ⟨fun _ => Or.inr (Or.inl ⟨_, rfl, rfl⟩), fun _ => ⟨_, rfl⟩⟩
    | array elems =>
      exact ⟨fun _ => Or.inr (Or.inl ⟨_, rfl, rfl⟩), fun _ => ⟨_, rfl⟩⟩
    | object members =>
      constructor
      · rintro ⟨e, he⟩
        rcases object_error_origin members st none e he with hnone | hex
        · simp at hnone
        · exact Or.inr (Or.inr ⟨members, rfl, hex⟩)
      · rintro (⟨e0, h0⟩ | ⟨v, hv, ho⟩ | ⟨ms, hm, hex⟩)
        · simp at h0
        · have hv2 : v = Value.object members := (Except.ok.inj hv).symm
          rw [hv2] at ho
          simp [Value.isOtherThanObject] at ho
        · have hm2 : ms = members := by
            have h3 := Except.ok.inj hm
            simp at h3
            exact h3.symm
          rw [hm2] at hex
          exact object_type_error members st none hex

/-- The scanner's step at an opening square bracket where a value may begin. -/
theorem step_open_bracket (s : State) (stack : List Frame)
    (hs : s = .beginValue ∨ s = .beginValueOrEmpty) :
    step s stack '[' = pushParseState '[' (.arrayValue []) stack .beginValueOrEmpty := by
  rcases hs with hs | hs <;> (subst hs; rfl)

/-- Opening brackets that take the stack past `maxNestingDepth` end the scan
with the syntax error "exceeded max depth", whatever follows them. -/
theorem scan_exceeds_max_depth (atEOF : Error) (n : Nat) :
    ∀ (s : State) (stack : List Frame) (rest : List Char),
      (s = .beginValue ∨ s = .beginValueOrEmpty) →
      stack.length + n = maxNestingDepth →
      scan atEOF s stack (List.replicate (n + 1) '[' ++ rest) =
        .error (.syntaxError '[' "exceeded max depth") := by
  induction n with
  | zero =>
    intro s stack rest hs hlen
    have hstep : step s stack '[' = .fail (.syntaxError '[' "exceeded max depth") := by
      rw [step_open_bracket s stack hs]
      unfold pushParseState
      have hdeep : ¬ (Frame.arrayValue [] :: stack).length ≤ maxNestingDepth := by
        simp only [List.length_cons]
        omega
      rw [if_neg hdeep]
      rfl
    simp only [List.replicate, List.cons_append, List.nil_append, scan, hstep]
  | succ n ih =>
    intro s stack rest hs hlen
    have hstep : step s stack '[' = .next .beginValueOrEmpty (.arrayValue [] :: stack) := by
      rw [step_open_bracket s stack hs]
      unfold pushParseState
      have hroom : (Frame.arrayValue [] :: stack).length ≤ maxNestingDepth := by
        simp only [List.length_cons]
        omega
      simp only [hroom, if_true]
    have hrep : List.replicate (n + 1 + 1) '[' ++ rest
        = '[' :: (List.replicate (n + 1) '[' ++ rest) := rfl
    rw [hrep]
    simp only [scan, hstep]
    exact ih .beginValueOrEmpty (.arrayValue [] :: stack) rest (Or.inr rfl)
      (by simp only [List.length_cons]; omega)

/-- The scan of an object up to the value of its first member `a`. -/
theorem scan_member_a (atEOF : Error) (tail : List Char) :
    scan atEOF .beginValue [] ("\x7b\"a\":".toList ++ tail) =
      scan atEOF .beginValue [.objectValue [] "a"] tail := rfl

/-- The decoder refuses `nestedBody n` when its nesting is one more than
`maxNestingDepth`. -/
theorem Decode_nestedBody (n : Nat) (hn : n + 1 = maxNestingDepth) (st : Status) :
    Decode (nestedBody n) st = (st, some (.syntaxError '[' "exceeded max depth")) := by
  have hl : (nestedBody n).toList = "\x7b\"a\":".toList ++ (List.replicate (n + 1) '[' ++
    (List.replicate (n + 1) ']' ++ ['}'])) := rfl
  have hr : readValue (nestedBody n).toList
      = .error (.syntaxError '[' "exceeded max depth") := by
    unfold readValue
    rw [hl, scan_member_a]
    exact scan_exceeds_max_depth _ n .beginValue _ _ (Or.inl rfl)
      (by simp only [List.length_singleton]; omega)
  unfold Decode
  rw [hr]

/-- The errors of `Decode` are errors of the decoder. -/
theorem Decode_error (body : String) (st : Status) (e : Error)
    (h : (Decode body st).2 = some e) : e.isDecodeError = true := by
  unfold Decode at h
  cases hr : readValue body.toList with
  | error e1 =>
    rw [hr] at h
    simp at h
    rw [← h]
    exact readValue_error _ _ hr
  | ok v =>
    rw [hr] at h
    simp only [] at h
    cases v with
    | null => simp [unmarshal] at h
    | bool b =>
      simp [unmarshal] at h
      rw [← h]
      rfl
    | number lit =>
      simp [unmarshal] at h
      rw [← h]
      rfl
    | string str =>
      simp [unmarshal] at h
      rw [← h]
      rfl
    | array elems =>
      simp [unmarshal] at h
      rw [← h]
      rfl
    | object members =>
      exact object_sound members st none (fun x hx => by simp at hx) e h

end json

/-! ## The POST operations -/

/-- C1: each of PowerOn, PowerOff and SetPXE returns no error if and only if
the request was constructed, the transport returned a response and the status
code of that response is exactly 200. -/
theorem C1_post_succeeds_iff_status_200 (env : Env) (c : Client) (sent : List Request) :
    ((c.PowerOn env sent).1 = none ↔
      env.parseURL ("http://" ++ c.endpoint ++ "/poweron") = none ∧
      ∃ resp, env.roundTrip sent ⟨"POST", "http://" ++ c.endpoint ++ "/poweron", none⟩
          = .ok resp ∧ resp.statusCode = 200) ∧
    ((c.PowerOff env sent).1 = none ↔
      env.parseURL ("http://" ++ c.endpoint ++ "/poweroff") = none ∧
      ∃ resp, env.roundTrip sent ⟨"POST", "http://" ++ c.endpoint ++ "/poweroff", none⟩
          = .ok resp ∧ resp.statusCode = 200) ∧
    ((c.SetPXE env sent).1 = none ↔
      env.parseURL ("http://" ++ c.endpoint ++ "/pxeboot") = none ∧
      ∃ resp, env.roundTrip sent ⟨"POST", "http://" ++ c.endpoint ++ "/pxeboot", none⟩
          = .ok resp ∧ resp.statusCode = 200) :=
  ⟨postRequest_ok_iff env c "/poweron" sent, postRequest_ok_iff env c "/poweroff" sent,
    postRequest_ok_iff env c "/pxeboot" sent⟩

/-- Witness of C1 : status 200 succeeds, status 204 does not. -/
theorem C1_post_succeeds_iff_status_200_witness :
    (exampleClient.PowerOn (Env.answering ⟨"200 OK", 200, ""⟩) []).1 = none ∧
    (exampleClient.SetPXE (Env.answering ⟨"204 No Content", 204, ""⟩) []).1 ≠ none :=
  ⟨(C1_post_succeeds_iff_status_200 (Env.answering ⟨"200 OK", 200, ""⟩) exampleClient []).1.mpr
      ⟨rfl, ⟨"200 OK", 200, ""⟩, rfl, rfl⟩,
    fun h =>
      absurd ((C1_post_succeeds_iff_status_200 (Env.answering ⟨"204 No Content", 204, ""⟩)
          exampleClient []).2.2.mp h)
        (by
          rintro ⟨_, resp, hresp, hs⟩
          have hr : resp = ⟨"204 No Content", 204, ""⟩ := (Except.ok.inj hresp).symm
          rw [hr] at hs
          exact absurd hs (by decide))⟩

/-- C2: when the power-off step of PowerCycle fails with an error, PowerCycle
returns exactly that error, the requests it issued are the ones of the
power-off step (none, or the single POST to /poweroff), and none of them goes
to /poweron. -/
theorem C2_powerCycle_stops_after_failed_poweroff (env : Env) (c : Client)
    (sent : List Request) (err : Error) (issued : List Request)
    (h : c.PowerOff env sent = (some err, issued)) :
    c.PowerCycle env sent = (some err, issued) ∧
    (issued = [] ∨ issued = [⟨"POST", "http://" ++ c.endpoint ++ "/poweroff", none⟩]) ∧
    ∀ r ∈ (c.PowerCycle env sent).2, r.url ≠ "http://" ++ c.endpoint ++ "/poweron" := by
  have hc : c.PowerCycle env sent = (some err, issued) := by
    unfold Client.PowerOff at h
    unfold Client.PowerCycle
    rw [h]
  have hi : issued = [] ∨
      issued = [⟨"POST", "http://" ++ c.endpoint ++ "/poweroff", none⟩] := by
    unfold Client.PowerOff at h
    rw [postRequest_eq] at h
    cases hp : env.parseURL ("http://" ++ c.endpoint ++ "/poweroff") with
    | some msg =>
      rw [hp] at h
      exact Or.inl (congrArg Prod.snd h).symm
    | none =>
      rw [hp] at h
      refine Or.inr ?_
      cases hr : env.roundTrip sent ⟨"POST", "http://" ++ c.endpoint ++ "/poweroff", none⟩ with
      | error msg =>
        rw [hr] at h
        exact (congrArg Prod.snd h).symm
      | ok resp =>
        rw [hr] at h
        by_cases hs : resp.statusCode = 200
        · simp [hs] at h
        · simp only [hs, if_false] at h
          exact (congrArg Prod.snd h).symm
  refine ⟨hc, hi, ?_⟩
  intro r hr
  rw [hc] at hr
  rcases hi with hi | hi
  · rw [hi] at hr
    simp at hr
  · rw [hi] at hr
    simp only [List.mem_singleton] at hr
    rw [hr]
    exact poweroff_url_ne_poweron c.endpoint

/-- Witness of C2 : an agent answering 500 to every request. -/
theorem C2_powerCycle_stops_after_failed_poweroff_witness :
    exampleClient.PowerOff (Env.answering ⟨"500 Internal Server Error", 500, ""⟩) [] =
        (some (.errorString "API error: 500 Internal Server Error"),
          [⟨"POST", "http://10.5.0.2:8081/poweroff", none⟩]) ∧
    exampleClient.PowerCycle (Env.answering ⟨"500 Internal Server Error", 500, ""⟩) [] =
        (some (.errorString "API error: 500 Internal Server Error"),
          [⟨"POST", "http://10.5.0.2:8081/poweroff", none⟩]) :=
  ⟨by decide,
    (C2_powerCycle_stops_after_failed_poweroff
      (Env.answering ⟨"500 Internal Server Error", 500, ""⟩) exampleClient []
      (.errorString "API error: 500 Internal Server Error")
      [⟨"POST", "http://10.5.0.2:8081/poweroff", none⟩] (by decide)).1⟩

/-- C3: PowerCycle succeeds if and only if the POST to /poweroff is answered
with status 200 and the POST to /poweron that follows it is answered with
status 200; when it succeeds the requests it issued are exactly POST /poweroff
followed by POST /poweron. -/
theorem C3_powerCycle_succeeds_iff_both_200 (env : Env) (c : Client) (sent : List Request) :
    ((c.PowerCycle env sent).1 = none ↔
      (env.parseURL ("http://" ++ c.endpoint ++ "/poweroff") = none ∧
        ∃ r1, env.roundTrip sent ⟨"POST", "http://" ++ c.endpoint ++ "/poweroff", none⟩
            = .ok r1 ∧ r1.statusCode = 200) ∧
      (env.parseURL ("http://" ++ c.endpoint ++ "/poweron") = none ∧
        ∃ r2, env.roundTrip (sent ++ [⟨"POST", "http://" ++ c.endpoint ++ "/poweroff", none⟩])
            ⟨"POST", "http://" ++ c.endpoint ++ "/poweron", none⟩
            = .ok r2 ∧ r2.statusCode = 200)) ∧
    ((c.PowerCycle env sent).1 = none →
      (c.PowerCycle env sent).2 =
        [⟨"POST", "http://" ++ c.endpoint ++ "/poweroff", none⟩,
          ⟨"POST", "http://" ++ c.endpoint ++ "/poweron", none⟩]) := by
  have hoff := postRequest_ok_iff env c "/poweroff" sent
  have hon := postRequest_ok_iff env c "/poweron"
    (sent ++ [⟨"POST", "http://" ++ c.endpoint ++ "/poweroff", none⟩])
  have hoffEq := postRequest_eq env c "/poweroff" sent
  have honEq := postRequest_eq env c "/poweron"
    (sent ++ [⟨"POST", "http://" ++ c.endpoint ++ "/poweroff", none⟩])
  cases hres : c.postRequest env "/poweroff" sent with
  | mk e1 issued1 =>
    cases e1 with
    | some err =>
      have hne : ¬ (c.postRequest env "/poweroff" sent).1 = none := by simp [hres]
      have hcyc : c.PowerCycle env sent = (some err, issued1) := by
        unfold Client.PowerCycle
        rw [hres]
      rw [hcyc]
      constructor
      · constructor
        · intro h
          simp at h
        · intro h
          exact absurd (hoff.mpr h.1) hne
      · intro h
        simp at h
    | none =>
      have hok : (c.postRequest env "/poweroff" sent).1 = none := by simp [hres]
      have h1 := hoff.mp hok
      obtain ⟨hp1, r1, hr1, hs1⟩ := h1
      have hissued : issued1 = [⟨"POST", "http://" ++ c.endpoint ++ "/poweroff", none⟩] := by
        rw [hoffEq, hp1] at hres
        simp only [hr1, hs1, if_true] at hres
        exact (congrArg Prod.snd hres).symm
      have hcyc : c.PowerCycle env sent =
          ((c.postRequest env "/poweron" (sent ++ issued1)).1,
            issued1 ++ (c.postRequest env "/poweron" (sent ++ issued1)).2) := by
        unfold Client.PowerCycle
        rw [hres]
      rw [hcyc, hissued]
      constructor
      · constructor
        · intro h
          exact ⟨⟨hp1, r1, hr1, hs1⟩, hon.mp h⟩
        · intro h
          exact hon.mpr h.2
      · intro h
        obtain ⟨hp2, r2, hr2, hs2⟩ := hon.mp h
        rw [honEq, hp2]
        simp only [hr2, hs2, if_true]
        rfl

/-- Witness of C3 : an agent answering 200 to every request. -/
theorem C3_powerCycle_succeeds_iff_both_200_witness :
    exampleClient.PowerCycle (Env.answering ⟨"200 OK", 200, ""⟩) [] =
      (none, [⟨"POST", "http://10.5.0.2:8081/poweroff", none⟩,
        ⟨"POST", "http://10.5.0.2:8081/poweron", none⟩]) :=
  have h := C3_powerCycle_succeeds_iff_both_200 (Env.answering ⟨"200 OK", 200, ""⟩)
    exampleClient []
  have hok : (exampleClient.PowerCycle (Env.answering ⟨"200 OK", 200, ""⟩) []).1 = none :=
    h.1.mpr ⟨⟨rfl, ⟨"200 OK", 200, ""⟩, rfl, rfl⟩, ⟨rfl, ⟨"200 OK", 200, ""⟩, rfl, rfl⟩⟩
  Prod.ext hok (h.2 hok)

/-- C4: NewClient never fails and stores the endpoint unchanged, and the
request each operation builds has no body, method POST (GET for IsPoweredOn)
and the URL made of "http://", the endpoint as given and the path of the
operation. -/
theorem C4_requests_built (env : Env) (spec : ManagementAPI) (sent : List Request) :
    (NewClient spec).2 = none ∧ (NewClient spec).1.endpoint = spec.Endpoint ∧
    (env.parseURL ("http://" ++ spec.Endpoint ++ "/poweron") = none →
      ((NewClient spec).1.PowerOn env sent).2 =
        [⟨"POST", "http://" ++ spec.Endpoint ++ "/poweron", none⟩]) ∧
    (env.parseURL ("http://" ++ spec.Endpoint ++ "/poweroff") = none →
      ((NewClient spec).1.PowerOff env sent).2 =
        [⟨"POST", "http://" ++ spec.Endpoint ++ "/poweroff", none⟩]) ∧
    (env.parseURL ("http://" ++ spec.Endpoint ++ "/pxeboot") = none →
      ((NewClient spec).1.SetPXE env sent).2 =
        [⟨"POST", "http://" ++ spec.Endpoint ++ "/pxeboot", none⟩]) ∧
    (env.parseURL ("http://" ++ spec.Endpoint ++ "/status") = none →
      ((NewClient spec).1.IsPoweredOn env sent).2 =
        [⟨"GET", "http://" ++ spec.Endpoint ++ "/status", none⟩]) := by
  refine ⟨rfl, rfl, ?_, ?_, ?_, ?_⟩
  · intro h
    exact postRequest_issued env (NewClient spec).1 "/poweron" sent h
  · intro h
    exact postRequest_issued env (NewClient spec).1 "/poweroff" sent h
  · intro h
    exact postRequest_issued env (NewClient spec).1 "/pxeboot" sent h
  · intro h
    have h2 : env.parseURL ("http://" ++ (NewClient spec).1.endpoint ++ "/status") = none := h
    rw [IsPoweredOn_eq, h2]
    cases hr : env.roundTrip sent
        ⟨"GET", "http://" ++ (NewClient spec).1.endpoint ++ "/status", none⟩ with
    | error msg => rfl
    | ok resp =>
      simp only []
      cases hd : json.Decode resp.body (Status.mk false) with
      | mk st e =>
        cases e with
        | none => rfl
        | some err => rfl

/-- Witness of C4 : the requests built for the endpoint 10.5.0.2:8081. -/
theorem C4_requests_built_witness :
    (exampleClient.SetPXE (Env.unreachable "connection refused") []).2 =
      [⟨"POST", "http://10.5.0.2:8081/pxeboot", none⟩] ∧
    (exampleClient.IsPoweredOn (Env.unreachable "connection refused") []).2 =
      [⟨"GET", "http://10.5.0.2:8081/status", none⟩] :=
  have h := C4_requests_built (Env.unreachable "connection refused") ⟨"10.5.0.2:8081"⟩ []
  ⟨h.2.2.2.2.1 rfl, h.2.2.2.2.2 rfl⟩

/-- C8: a response with a status code other than 200 makes PowerOn, PowerOff and
SetPXE fail with the error whose message is "API error: " followed by the
status text of the response; different status texts give different errors. -/
theorem C8_status_error_carries_status (env : Env) (c : Client) (sent : List Request)
    (resp : Response) (hs : resp.statusCode ≠ 200) :
    (env.parseURL ("http://" ++ c.endpoint ++ "/poweron") = none →
      env.roundTrip sent ⟨"POST", "http://" ++ c.endpoint ++ "/poweron", none⟩ = .ok resp →
      (c.PowerOn env sent).1 = some (.errorString ("API error: " ++ resp.status))) ∧
    (env.parseURL ("http://" ++ c.endpoint ++ "/poweroff") = none →
      env.roundTrip sent ⟨"POST", "http://" ++ c.endpoint ++ "/poweroff", none⟩ = .ok resp →
      (c.PowerOff env sent).1 = some (.errorString ("API error: " ++ resp.status))) ∧
    (env.parseURL ("http://" ++ c.endpoint ++ "/pxeboot") = none →
      env.roundTrip sent ⟨"POST", "http://" ++ c.endpoint ++ "/pxeboot", none⟩ = .ok resp →
      (c.SetPXE env sent).1 = some (.errorString ("API error: " ++ resp.status))) ∧
    (∀ other : Response, resp.status ≠ other.status →
      Error.errorString ("API error: " ++ resp.status) ≠
        Error.errorString ("API error: " ++ other.status)) := by
  refine ⟨?_, ?_, ?_, ?_⟩
  · intro hurl hdo
    exact postRequest_status_error env c "/poweron" sent resp hurl hdo hs
  · intro hurl hdo
    exact postRequest_status_error env c "/poweroff" sent resp hurl hdo hs
  · intro hurl hdo
    exact postRequest_status_error env c "/pxeboot" sent resp hurl hdo hs
  · intro other hne heq
    exact hne (string_append_cancel "API error: " resp.status other.status
      (Error.errorString.inj heq))

/-- Witness of C8 : an agent answering 500 to every request. -/
theorem C8_status_error_carries_status_witness :
    (500 : Int) ≠ 200 ∧
    (exampleClient.PowerOn (Env.answering ⟨"500 Internal Server Error", 500, ""⟩) []).1 =
      some (.errorString ("API error: " ++ "500 Internal Server Error")) :=
  ⟨by decide,
    (C8_status_error_carries_status (Env.answering ⟨"500 Internal Server Error", 500, ""⟩)
      exampleClient [] ⟨"500 Internal Server Error", 500, ""⟩ (by decide)).1 rfl rfl⟩

/-- C10: when the transport fails the request of PowerOn, PowerOff, SetPXE or
IsPoweredOn with an error, the operation returns exactly that error after
exactly one request; when the request cannot be constructed the operation
returns the constructor's error and no request is issued. -/
theorem C10_errors_returned_unchanged (env : Env) (c : Client) (sent : List Request)
    (e : Error) :
    (∀ req, NewRequestWithContext env "POST" ("http://" ++ c.endpoint ++ "/poweron") none
        = .ok req → Do env sent req = .error e → c.PowerOn env sent = (some e, [req])) ∧
    (∀ req, NewRequestWithContext env "POST" ("http://" ++ c.endpoint ++ "/poweroff") none
        = .ok req → Do env sent req = .error e → c.PowerOff env sent = (some e, [req])) ∧
    (∀ req, NewRequestWithContext env "POST" ("http://" ++ c.endpoint ++ "/pxeboot") none
        = .ok req → Do env sent req = .error e → c.SetPXE env sent = (some e, [req])) ∧
    (∀ req, NewRequestWithContext env "GET" ("http://" ++ c.endpoint ++ "/status") none
        = .ok req → Do env sent req = .error e →
        c.IsPoweredOn env sent = ((false, some e), [req])) ∧
    (NewRequestWithContext env "POST" ("http://" ++ c.endpoint ++ "/poweron") none
        = .error e → c.PowerOn env sent = (some e, [])) ∧
    (NewRequestWithContext env "POST" ("http://" ++ c.endpoint ++ "/poweroff") none
        = .error e → c.PowerOff env sent = (some e, [])) ∧
    (NewRequestWithContext env "POST" ("http://" ++ c.endpoint ++ "/pxeboot") none
        = .error e → c.SetPXE env sent = (some e, [])) ∧
    (NewRequestWithContext env "GET" ("http://" ++ c.endpoint ++ "/status") none
        = .error e → c.IsPoweredOn env sent = ((false, some e), [])) := by
  refine ⟨?_, ?_, ?_, ?_, ?_, ?_, ?_, ?_⟩
  · intro req h1 h2
    exact postRequest_transport_error env c "/poweron" sent req e h1 h2
  · intro req h1 h2
    exact postRequest_transport_error env c "/poweroff" sent req e h1 h2
  · intro req h1 h2
    exact postRequest_transport_error env c "/pxeboot" sent req e h1 h2
  · intro req h1 h2
    exact IsPoweredOn_transport_error env c sent req e h1 h2
  · intro h1
    exact postRequest_request_error env c "/poweron" sent e h1
  · intro h1
    exact postRequest_request_error env c "/poweroff" sent e h1
  · intro h1
    exact postRequest_request_error env c "/pxeboot" sent e h1
  · intro h1
    exact IsPoweredOn_request_error env c sent e h1

/-- Witness of C10 : an agent that refuses the connection, and an endpoint
that does not parse. -/
theorem C10_errors_returned_unchanged_witness :
    exampleClient.IsPoweredOn (Env.unreachable "connection refused") [] =
      ((false, some (.transport "connection refused")),
        [⟨"GET", "http://10.5.0.2:8081/status", none⟩]) ∧
    exampleClient.PowerOn (Env.malformed "invalid port") [] =
      (some (.request "invalid port"), []) :=
  ⟨(C10_errors_returned_unchanged (Env.unreachable "connection refused") exampleClient []
      (.transport "connection refused")).2.2.2.1 _ rfl rfl,
    (C10_errors_returned_unchanged (Env.malformed "invalid port") exampleClient []
      (.request "invalid port")).2.2.2.2.1 rfl⟩

/-! ## IsPoweredOn -/

/-- C6: the result of IsPoweredOn does not depend on the status code: two
responses with the same body give the same value and error, whatever their
status codes. A response with the field set to true yields true and no error
also when its status is 500, a status on which PowerOn, PowerOff and SetPXE
fail. -/
theorem C6_isPoweredOn_ignores_status (env1 env2 : Env) (c : Client)
    (sent1 sent2 : List Request) (r1 r2 : Response)
    (hurl1 : env1.parseURL ("http://" ++ c.endpoint ++ "/status") = none)
    (hurl2 : env2.parseURL ("http://" ++ c.endpoint ++ "/status") = none)
    (hdo1 : env1.roundTrip sent1 ⟨"GET", "http://" ++ c.endpoint ++ "/status", none⟩ = .ok r1)
    (hdo2 : env2.roundTrip sent2 ⟨"GET", "http://" ++ c.endpoint ++ "/status", none⟩ = .ok r2)
    (hbody : r1.body = r2.body) :
    c.IsPoweredOn env1 sent1 = c.IsPoweredOn env2 sent2 ∧
    (r1.body = "\x7b\"PoweredOn\": true\x7d" → r1.statusCode = 500 →
      (c.IsPoweredOn env1 sent1).1 = (true, none) ∧
      (env1.parseURL ("http://" ++ c.endpoint ++ "/poweron") = none →
        env1.roundTrip sent1 ⟨"POST", "http://" ++ c.endpoint ++ "/poweron", none⟩ = .ok r1 →
        (c.PowerOn env1 sent1).1 = some (.errorString ("API error: " ++ r1.status))) ∧
      (env1.parseURL ("http://" ++ c.endpoint ++ "/poweroff") = none →
        env1.roundTrip sent1 ⟨"POST", "http://" ++ c.endpoint ++ "/poweroff", none⟩ = .ok r1 →
        (c.PowerOff env1 sent1).1 = some (.errorString ("API error: " ++ r1.status))) ∧
      (env1.parseURL ("http://" ++ c.endpoint ++ "/pxeboot") = none →
        env1.roundTrip sent1 ⟨"POST", "http://" ++ c.endpoint ++ "/pxeboot", none⟩ = .ok r1 →
        (c.SetPXE env1 sent1).1 = some (.errorString ("API error: " ++ r1.status)))) := by
  refine ⟨?_, ?_⟩
  · rw [IsPoweredOn_of_response env1 c sent1 r1 hurl1 hdo1,
      IsPoweredOn_of_response env2 c sent2 r2 hurl2 hdo2, hbody]
  · intro hb hs
    have hne : r1.statusCode ≠ 200 := by
      rw [hs]
      decide
    refine ⟨?_, ?_, ?_, ?_⟩
    · rw [IsPoweredOn_of_response env1 c sent1 r1 hurl1 hdo1, hb]
      have hd : json.Decode "\x7b\"PoweredOn\": true\x7d" (Status.mk false)
          = (Status.mk true, none) := by decide
      simp only [hd]
    · intro hurl hdo
      exact postRequest_status_error env1 c "/poweron" sent1 r1 hurl hdo hne
    · intro hurl hdo
      exact postRequest_status_error env1 c "/poweroff" sent1 r1 hurl hdo hne
    · intro hurl hdo
      exact postRequest_status_error env1 c "/pxeboot" sent1 r1 hurl hdo hne

/-- Witness of C6 : the same body answered with status 500 and with status
200. -/
theorem C6_isPoweredOn_ignores_status_witness :
    exampleClient.IsPoweredOn
        (Env.answering ⟨"500 Internal Server Error", 500, "\x7b\"PoweredOn\": true\x7d"⟩) [] =
      exampleClient.IsPoweredOn
        (Env.answering ⟨"200 OK", 200, "\x7b\"PoweredOn\": true\x7d"⟩) [] ∧
    (exampleClient.IsPoweredOn
        (Env.answering ⟨"500 Internal Server Error", 500, "\x7b\"PoweredOn\": true\x7d"⟩)
        []).1 = (true, none) ∧
    (exampleClient.PowerOn
        (Env.answering ⟨"500 Internal Server Error", 500, "\x7b\"PoweredOn\": true\x7d"⟩)
        []).1 = some (.errorString ("API error: " ++ "500 Internal Server Error")) :=
  have h := C6_isPoweredOn_ignores_status
    (Env.answering ⟨"500 Internal Server Error", 500, "\x7b\"PoweredOn\": true\x7d"⟩)
    (Env.answering ⟨"200 OK", 200, "\x7b\"PoweredOn\": true\x7d"⟩) exampleClient [] []
    ⟨"500 Internal Server Error", 500, "\x7b\"PoweredOn\": true\x7d"⟩
    ⟨"200 OK", 200, "\x7b\"PoweredOn\": true\x7d"⟩ rfl rfl rfl rfl rfl
  ⟨h.1, (h.2 rfl rfl).1, (h.2 rfl rfl).2.1 rfl rfl⟩

/-- C7, as stated, fails: the object with the single field "poweredon" has no
field named PoweredOn, and IsPoweredOn returns true for it, because the decoder
also accepts a key that differs from the field name in case only. And the
object whose only field "a" holds arrays nested 10000 deep has no field named
PoweredOn either, and IsPoweredOn returns the decoder's error "exceeded max
depth" for it. -/
theorem C7_counterexample_lowercase_key :
    json.readValue "\x7b\"poweredon\": true\x7d".toList =
      .ok (.object [("poweredon", .bool true)]) ∧
    (∀ kv ∈ [("poweredon", json.Value.bool true)], kv.1 ≠ "PoweredOn") ∧
    (exampleClient.IsPoweredOn
      (Env.answering ⟨"200 OK", 200, "\x7b\"poweredon\": true\x7d"⟩) []).1 = (true, none) ∧
    (exampleClient.IsPoweredOn
      (Env.answering ⟨"200 OK", 200, "\x7b\"poweredon\": true\x7d"⟩) []).1 ≠ (false, none) ∧
    (exampleClient.IsPoweredOn (Env.answering ⟨"200 OK", 200, nestedBody 9999⟩) []).1 =
      (false, some (.syntaxError '[' "exceeded max depth")) := by
  refine ⟨rfl, ?_, by decide, by decide, ?_⟩
  · intro kv hkv
    simp only [List.mem_singleton] at hkv
    rw [hkv]
    decide
  · rw [IsPoweredOn_of_response (Env.answering ⟨"200 OK", 200, nestedBody 9999⟩)
      exampleClient [] ⟨"200 OK", 200, nestedBody 9999⟩ rfl rfl]
    simp only [json.Decode_nestedBody 9999 rfl]

/-- C7, amended: when the decoder reads a JSON object from the response body
(which it does only for nesting within its bound of 10000) and none of the
keys of the object matches the field name PoweredOn, exactly or up to the case
of its letters, IsPoweredOn returns false and no error. -/
theorem C7_absent_field_defaults_to_false (env : Env) (c : Client) (sent : List Request)
    (resp : Response) (members : List (String × json.Value))
    (hurl : env.parseURL ("http://" ++ c.endpoint ++ "/status") = none)
    (hdo : env.roundTrip sent ⟨"GET", "http://" ++ c.endpoint ++ "/status", none⟩ = .ok resp)
    (hbody : json.readValue resp.body.toList = .ok (.object members))
    (hkeys : ∀ kv ∈ members, json.fieldMatches kv.1 = false) :
    (c.IsPoweredOn env sent).1 = (false, none) := by
  have hd : json.Decode resp.body (Status.mk false) = (Status.mk false, none) := by
    unfold json.Decode
    rw [hbody]
    exact json.object_no_field members (Status.mk false) none hkeys
  rw [IsPoweredOn_of_response env c sent resp hurl hdo]
  simp only [hd]

/-- Witness of the amended C7 : an object with two fields, neither of which
matches PoweredOn, and the empty object. -/
theorem C7_absent_field_defaults_to_false_witness :
    (exampleClient.IsPoweredOn
      (Env.answering ⟨"200 OK", 200, "\x7b\"power\": true, \"n\": [1, \x7b\"x\": null\x7d]\x7d"⟩)
      []).1 = (false, none) ∧
    (exampleClient.IsPoweredOn (Env.answering ⟨"200 OK", 200, "\x7b\x7d"⟩) []).1
      = (false, none) :=
  ⟨C7_absent_field_defaults_to_false
      (Env.answering ⟨"200 OK", 200, "\x7b\"power\": true, \"n\": [1, \x7b\"x\": null\x7d]\x7d"⟩)
      exampleClient []
      ⟨"200 OK", 200, "\x7b\"power\": true, \"n\": [1, \x7b\"x\": null\x7d]\x7d"⟩
      [("power", .bool true), ("n", .array [.number "1", .object [("x", .null)]])]
      rfl rfl rfl
      (fun kv h => by
        simp only [List.mem_cons, List.mem_singleton, List.not_mem_nil, or_false] at h
        rcases h with h | h <;> (rw [h]; decide)),
    C7_absent_field_defaults_to_false (Env.answering ⟨"200 OK", 200, "\x7b\x7d"⟩)
      exampleClient [] ⟨"200 OK", 200, "\x7b\x7d"⟩ [] rfl rfl rfl
      (fun _ h => absurd h (List.not_mem_nil _))⟩

/-- C9, as stated, fails: null is not a boolean, yet a PoweredOn field
holding null is accepted by the decoder and IsPoweredOn returns false with no
error; and a body that is not valid JSON because of the text after its first
value is decoded without error as well. -/
theorem C9_counterexample_null_field :
    json.readValue "\x7b\"PoweredOn\": null\x7d".toList =
      .ok (.object [("PoweredOn", .null)]) ∧
    (exampleClient.IsPoweredOn
      (Env.answering ⟨"200 OK", 200, "\x7b\"PoweredOn\": null\x7d"⟩) []).1 = (false, none) ∧
    (exampleClient.IsPoweredOn
      (Env.answering ⟨"200 OK", 200, "\x7b\"PoweredOn\": true\x7d]"⟩) []).1 = (true, none) :=
  ⟨rfl, by decide, by decide⟩

/-- C9, amended: when the decoder reports an error for the response body,
IsPoweredOn returns false together with exactly that error, which is an error
of the decoder and so neither a transport error, nor a request construction
error, nor an "API error: ..." status error. The decoder reports an error
exactly in three cases: no JSON value can be read from the start of the body
(as for the empty body and for the body not-json), the value read is a
boolean, a number, a string or an array, or it is an object with a field
matching PoweredOn that holds a number, a string, an array or an object (as
for a string). IsPoweredOn never returns true together with an error. -/
theorem C9_decode_error_returned (env : Env) (c : Client) (sent : List Request)
    (resp : Response)
    (hurl : env.parseURL ("http://" ++ c.endpoint ++ "/status") = none)
    (hdo : env.roundTrip sent ⟨"GET", "http://" ++ c.endpoint ++ "/status", none⟩ = .ok resp)
    (hbad : (∃ e0, json.readValue resp.body.toList = .error e0) ∨
      (∃ v, json.readValue resp.body.toList = .ok v ∧ v.isOtherThanObject = true) ∨
      (∃ members, json.readValue resp.body.toList = .ok (.object members) ∧
        ∃ kv ∈ members, json.fieldMatches kv.1 = true ∧ kv.2.isOtherType = true)) :
    (∃ e, (json.Decode resp.body (Status.mk false)).2 = some e ∧
      (c.IsPoweredOn env sent).1 = (false, some e) ∧
      e.isDecodeError = true ∧
      (∀ msg, e ≠ .transport msg) ∧ (∀ msg, e ≠ .request msg) ∧
      (∀ str, e ≠ .errorString str)) ∧
    (∀ (body : String) (e1 : Error), (json.Decode body (Status.mk false)).2 = some e1 →
      ((∃ e0, json.readValue body.toList = .error e0) ∨
        (∃ v, json.readValue body.toList = .ok v ∧ v.isOtherThanObject = true) ∨
        (∃ members, json.readValue body.toList = .ok (.object members) ∧
          ∃ kv ∈ members, json.fieldMatches kv.1 = true ∧ kv.2.isOtherType = true))) ∧
    (json.Decode "" (Status.mk false)).2 = some .EOF ∧
    (json.Decode "not-json" (Status.mk false)).2 =
      some (.syntaxError 'o' "in literal null (expecting 'u')") ∧
    (json.Decode "\x7b\"PoweredOn\": \"on\"\x7d" (Status.mk false)).2 =
      some (.unmarshalTypeError "string" "bool") ∧
    (∀ (env0 : Env) (c0 : Client) (sent0 : List Request) (x : Error),
      (c0.IsPoweredOn env0 sent0).1 ≠ (true, some x)) := by
  refine ⟨?_, ?_, by decide, by decide, by decide, ?_⟩
  · obtain ⟨e, hdec⟩ := (json.Decode_error_iff resp.body (Status.mk false)).mpr hbad
    have hcls := json.Decode_error resp.body (Status.mk false) e hdec
    refine ⟨e, hdec, ?_, hcls, ?_, ?_, ?_⟩
    · rw [IsPoweredOn_of_response env c sent resp hurl hdo]
      cases hd : json.Decode resp.body (Status.mk false) with
      | mk st err =>
        rw [hd] at hdec
        simp only [] at hdec
        rw [hdec]
    · intro msg h
      rw [h] at hcls
      simp [Error.isDecodeError] at hcls
    · intro msg h
      rw [h] at hcls
      simp [Error.isDecodeError] at hcls
    · intro str h
      rw [h] at hcls
      simp [Error.isDecodeError] at hcls
  · intro body e1 h1
    exact (json.Decode_error_iff body (Status.mk false)).mp ⟨e1, h1⟩
  · intro env0 c0 sent0 x
    rw [IsPoweredOn_eq]
    cases env0.parseURL ("http://" ++ c0.endpoint ++ "/status") with
    | some msg => simp
    | none =>
      simp only []
      cases env0.roundTrip sent0 ⟨"GET", "http://" ++ c0.endpoint ++ "/status", none⟩ with
      | error msg => simp
      | ok resp0 =>
        simp only []
        cases json.Decode resp0.body (Status.mk false) with
        | mk st err =>
          cases err with
          | none => simp
          | some err0 => simp

/-- Witness of the amended C9 : an agent answering 200 with the body not-json,
and one answering 200 with a string in the PoweredOn field. -/
theorem C9_decode_error_returned_witness :
    (exampleClient.IsPoweredOn (Env.answering ⟨"200 OK", 200, "not-json"⟩) []).1 =
      (false, some (.syntaxError 'o' "in literal null (expecting 'u')")) ∧
    (exampleClient.IsPoweredOn
      (Env.answering ⟨"200 OK", 200, "\x7b\"PoweredOn\": \"on\"\x7d"⟩) []).1 =
      (false, some (.unmarshalTypeError "string" "bool")) := by
  constructor
  · obtain ⟨e, hdec, hres, _⟩ :=
      (C9_decode_error_returned (Env.answering ⟨"200 OK", 200, "not-json"⟩) exampleClient []
        ⟨"200 OK", 200, "not-json"⟩ rfl rfl (Or.inl ⟨_, rfl⟩)).1
    have hval : (json.Decode "not-json" (Status.mk false)).2 =
        some (.syntaxError 'o' "in literal null (expecting 'u')") := by decide
    have hdec2 : (json.Decode "not-json" (Status.mk false)).2 = some e := hdec
    rw [hval] at hdec2
    rw [← Option.some.inj hdec2] at hres
    exact hres
  · obtain ⟨e, hdec, hres, _⟩ :=
      (C9_decode_error_returned
        (Env.answering ⟨"200 OK", 200, "\x7b\"PoweredOn\": \"on\"\x7d"⟩) exampleClient []
        ⟨"200 OK", 200, "\x7b\"PoweredOn\": \"on\"\x7d"⟩ rfl rfl
        (Or.inr (Or.inr ⟨[("PoweredOn", .string "on")], rfl,
          ("PoweredOn", .string "on"), List.mem_singleton.mpr rfl, by decide, rfl⟩))).1
    have hval : (json.Decode "\x7b\"PoweredOn\": \"on\"\x7d" (Status.mk false)).2 =
        some (.unmarshalTypeError "string" "bool") := by decide
    have hdec2 : (json.Decode "\x7b\"PoweredOn\": \"on\"\x7d" (Status.mk false)).2 = some e :=
      hdec
    rw [hval] at hdec2
    rw [← Option.some.inj hdec2] at hres
    exact hres

end api
